import Mathlib

/-!
Shallow embedding of the EventHub event-management server.

The repository has three variants of the same REST API:
* an in-memory variant (`server.js`): a `List` of events plus a counter
  `nextId`, with GET / POST / PUT / DELETE handlers;
* two document-store variants backed by a collection of documents with a
  string identifier and a required `createdBy` field; the single store
  operation of each handler may fail, modelled by a `fail` flag that takes
  the handler into its catch branch.

Request bodies are modelled field by field as `Option String` (a JSON body
may omit any field); JavaScript truthiness of a string field is `truthy`.
Timestamps are modelled as natural numbers.
-/

structure MemEvent where
  id : Nat
  title : String
  shortDescription : String
  fullDescription : String
  date : String
  time : String
  location : String
  price : String
  category : String
  imageUrl : String
  createdAt : Nat
  updatedAt : Option Nat := none
deriving DecidableEq

structure EventBody where
  id : Option Nat := none
  title : Option String := none
  shortDescription : Option String := none
  fullDescription : Option String := none
  date : Option String := none
  time : Option String := none
  location : Option String := none
  price : Option String := none
  category : Option String := none
  imageUrl : Option String := none
  createdBy : Option String := none
  createdAt : Option Nat := none
deriving DecidableEq

/-- JavaScript truthiness of an optional string field: an absent field and
the empty string are falsy, every other string is truthy. -/
def truthy : Option String → Bool
  | none => false
  | some s => !(s == "")

/-- The JavaScript idiom `v || d` on an optional string field. -/
def orDefaultStr (v : Option String) (d : String) : String :=
  match v with
  | none => d
  | some s => if s == "" then d else s

/-- A required field is missing in the ordinary JSON sense: absent or empty. -/
def strMissing (v : Option String) : Prop := v = none ∨ v = some ""

structure MemState where
  events : List MemEvent
  nextId : Nat
deriving DecidableEq

def memSeed1 : MemEvent :=
  { id := 1
    title := "Tech Conference 2024"
    shortDescription := "Join us for the biggest tech conference featuring industry leaders and innovators..."
    fullDescription := "Join us for the biggest tech conference of the year! This three-day event brings together industry leaders, innovators, and tech enthusiasts from around the world. Experience keynote speeches from top executives, hands-on workshops, and networking opportunities that will shape the future of technology."
    date := "2024-12-15"
    time := "09:00"
    location := "Moscone Center, San Francisco, CA"
    price := "$299"
    category := "Technology"
    imageUrl := "🚀"
    createdAt := 0 }

def memSeed2 : MemEvent :=
  { id := 2
    title := "Music Festival Summer"
    shortDescription := "Experience three days of amazing music performances from top artists worldwide..."
    fullDescription := "Experience three unforgettable days of amazing music performances from top artists worldwide. This summer music festival features multiple stages with diverse genres including rock, pop, electronic, and indie music. Enjoy food trucks, art installations, and camping options."
    date := "2025-01-20"
    time := "12:00"
    location := "Zilker Park, Austin, TX"
    price := "$150"
    category := "Music"
    imageUrl := "🎵"
    createdAt := 0 }

def memSeed3 : MemEvent :=
  { id := 3
    title := "Food & Wine Expo"
    shortDescription := "Taste exquisite dishes and wines from renowned chefs and sommeliers..."
    fullDescription := "Taste exquisite dishes and wines from renowned chefs and sommeliers from around the world. This culinary event features cooking demonstrations, wine tastings, and exclusive dining experiences that will delight your palate."
    date := "2025-02-05"
    time := "10:00"
    location := "Javits Center, New York, NY"
    price := "$75"
    category := "Food"
    imageUrl := "🍷"
    createdAt := 0 }

/-- The in-memory server state right after start: three seeded events (all
created at server-start time, modelled as 0) and `nextId = 4`. -/
def memInitialState : MemState :=
  { events := [memSeed1, memSeed2, memSeed3], nextId := 4 }

def memGetEvents (s : MemState) : List MemEvent := s.events

def memGetEvent (s : MemState) (id : Nat) : Nat × Option MemEvent :=
  match s.events.find? (fun e => e.id == id) with
  | none => (404, none)
  | some e => (200, some e)

/-- The validation condition of the in-memory POST handler:
`!title || !shortDescription || !fullDescription || !date || !location || !price`. -/
def memRequiredMissing (b : EventBody) : Bool :=
  !truthy b.title || !truthy b.shortDescription || !truthy b.fullDescription ||
    !truthy b.date || !truthy b.location || !truthy b.price

structure MemPostResult where
  status : Nat
  newState : MemState
  record : Option MemEvent
deriving DecidableEq

/-- The `newEvent` object built by the in-memory POST handler. -/
def memNewEvent (s : MemState) (b : EventBody) (now : Nat) : MemEvent :=
  { id := s.nextId
    title := b.title.getD ""
    shortDescription := b.shortDescription.getD ""
    fullDescription := b.fullDescription.getD ""
    date := b.date.getD ""
    time := orDefaultStr b.time "09:00"
    location := b.location.getD ""
    price := b.price.getD ""
    category := orDefaultStr b.category "Other"
    imageUrl := orDefaultStr b.imageUrl "📅"
    createdAt := now }

def memPost (s : MemState) (b : EventBody) (now : Nat) : MemPostResult :=
  if memRequiredMissing b then
    { status := 400, newState := s, record := none }
  else
    { status := 201
      newState := { events := s.events ++ [memNewEvent s b now], nextId := s.nextId + 1 }
      record := some (memNewEvent s b now) }

/-- `findIndex` followed by an assignment at the found index: replace the
first element satisfying `p` by its image under `f`, returning the updated
element and the updated list, or `none` when `findIndex` returns `-1`. -/
def replaceFirst {α : Type} (p : α → Bool) (f : α → α) : List α → Option (α × List α)
  | [] => none
  | e :: rest =>
    if p e then some (f e, f e :: rest)
    else
      match replaceFirst p f rest with
      | none => none
      | some (u, rest2) => some (u, e :: rest2)

/-- `findIndex` followed by `splice(index, 1)`: remove the first element
satisfying `p`, returning it and the remaining list, or `none` when
`findIndex` returns `-1`. -/
def removeFirst {α : Type} (p : α → Bool) : List α → Option (α × List α)
  | [] => none
  | e :: rest =>
    if p e then some (e, rest)
    else
      match removeFirst p rest with
      | none => none
      | some (d, rest2) => some (d, e :: rest2)

/-- The object spread `{ ...old, ...req.body, id: old.id, updatedAt: now }`
of the in-memory PUT handler: a field present in the body overrides the
stored one (even an empty string), an absent field keeps the stored value,
the identifier is forced back to the stored one. -/
def mergeEvent (e : MemEvent) (b : EventBody) (now : Nat) : MemEvent :=
  { id := e.id
    title := b.title.getD e.title
    shortDescription := b.shortDescription.getD e.shortDescription
    fullDescription := b.fullDescription.getD e.fullDescription
    date := b.date.getD e.date
    time := b.time.getD e.time
    location := b.location.getD e.location
    price := b.price.getD e.price
    category := b.category.getD e.category
    imageUrl := b.imageUrl.getD e.imageUrl
    createdAt := b.createdAt.getD e.createdAt
    updatedAt := some now }

def memPut (s : MemState) (id : Nat) (b : EventBody) (now : Nat) :
    Nat × MemState × Option MemEvent :=
  match replaceFirst (fun e => e.id == id) (fun e => mergeEvent e b now) s.events with
  | none => (404, s, none)
  | some (u, rest) => (200, { s with events := rest }, some u)

def memDelete (s : MemState) (id : Nat) : Nat × MemState × Option MemEvent :=
  match removeFirst (fun e => e.id == id) s.events with
  | none => (404, s, none)
  | some (d, rest) => (200, { s with events := rest }, some d)

/-- A sequence of POST requests, each with its body and arrival time. -/
def postMany (s : MemState) (reqs : List (EventBody × Nat)) : MemState :=
  reqs.foldl (fun st r => (memPost st r.1 r.2).newState) s

/-- All event identifiers are pairwise distinct and below the counter. -/
def memInvariant (s : MemState) : Prop :=
  (s.events.map MemEvent.id).Nodup ∧ ∀ e ∈ s.events, e.id < s.nextId

structure DbEvent where
  id : String
  title : String
  shortDescription : String
  fullDescription : String
  date : String
  time : String
  location : String
  price : String
  category : String
  imageUrl : String
  createdBy : String
  createdAt : Nat
deriving DecidableEq

def insertByCreatedAtDesc (e : DbEvent) : List DbEvent → List DbEvent
  | [] => [e]
  | x :: xs =>
    if e.createdAt ≤ x.createdAt then x :: insertByCreatedAtDesc e xs
    else e :: x :: xs

/-- The collection sorted by creation time descending, as produced by
`find().sort(\x7b createdAt: -1 \x7d)`. -/
def sortByCreatedAtDesc : List DbEvent → List DbEvent
  | [] => []
  | x :: xs => insertByCreatedAtDesc x (sortByCreatedAtDesc xs)

def dbGetEventsHandler (store : List DbEvent) (fail : Bool) :
    Nat × Option (List DbEvent) :=
  if fail then (500, none)
  else (200, some (sortByCreatedAtDesc store))

/-- Get-by-id: on a storage failure the catch branch answers 404, like the
not-found branch. -/
def dbGetEventHandler (store : List DbEvent) (id : String) (fail : Bool) :
    Nat × Option DbEvent :=
  if fail then (404, none)
  else
    match store.find? (fun e => e.id == id) with
    | none => (404, none)
    | some e => (200, some e)

def dbGetUserEventsHandler (store : List DbEvent) (email : String) (fail : Bool) :
    Nat × Option (List DbEvent) :=
  if fail then (500, none)
  else (200, some (sortByCreatedAtDesc (store.filter (fun e => e.createdBy == email))))

/-- The validation condition of the document-store POST handlers: the six
fields of the in-memory variant plus `createdBy`. -/
def dbRequiredMissing (b : EventBody) : Bool :=
  !truthy b.title || !truthy b.shortDescription || !truthy b.fullDescription ||
    !truthy b.date || !truthy b.location || !truthy b.price || !truthy b.createdBy

/-- The event document built by the document-store POST handlers; the
identifier is generated by the store, `createdAt` defaults to the current
time via the schema. -/
def dbNewEvent (b : EventBody) (newId : String) (now : Nat) : DbEvent :=
  { id := newId
    title := b.title.getD ""
    shortDescription := b.shortDescription.getD ""
    fullDescription := b.fullDescription.getD ""
    date := b.date.getD ""
    time := orDefaultStr b.time "09:00"
    location := b.location.getD ""
    price := b.price.getD ""
    category := orDefaultStr b.category "Other"
    imageUrl := orDefaultStr b.imageUrl "📅"
    createdBy := b.createdBy.getD ""
    createdAt := now }

def dbPostHandler (store : List DbEvent) (b : EventBody) (newId : String)
    (now : Nat) (fail : Bool) : Nat × List DbEvent × Option DbEvent :=
  if dbRequiredMissing b then (400, store, none)
  else if fail then (500, store, none)
  else (201, store ++ [dbNewEvent b newId now], some (dbNewEvent b newId now))

def dbDeleteHandler (store : List DbEvent) (id : String) (fail : Bool) :
    Nat × List DbEvent × Option DbEvent :=
  if fail then (500, store, none)
  else
    match removeFirst (fun e => e.id == id) store with
    | none => (404, store, none)
    | some (d, rest) => (200, rest, some d)

/-- A request body with every required field present and non-empty and every
optional field omitted. -/
def demoBody : EventBody :=
  { title := some "Demo Event"
    shortDescription := some "Short demo text"
    fullDescription := some "Full demo text"
    date := some "2025-06-01"
    location := some "Online"
    price := some "Free"
    createdBy := some "demo@example.com" }

/-- A request body where every required field is present but the title is
the empty string. -/
def emptyTitleBody : EventBody :=
  { demoBody with title := some "" }

/-- A request body carrying only a title. -/
def titleOnlyBody : EventBody :=
  { title := some "New Title" }

/-! Helper lemmas about the list operations shared by the handlers. -/

theorem truthy_eq_false_iff (v : Option String) : truthy v = false ↔ strMissing v := by
  cases v with
  | none => simp [truthy, strMissing]
  | some s => simp [truthy, strMissing]

theorem removeFirst_eq_none {α : Type} (p : α → Bool) (l : List α) :
    removeFirst p l = none ↔ ∀ x ∈ l, p x = false := by
  induction l with
  | nil => simp [removeFirst]
  | cons e rest ih =>
    rw [removeFirst]
    by_cases hp : p e = true
    · simp [hp]
    · simp only [Bool.not_eq_true] at hp
      rw [if_neg (by simp [hp])]
      constructor
      · intro h x hx
        rcases List.mem_cons.mp hx with h1 | h1
        · exact h1 ▸ hp
        · refine (ih.mp ?_) x h1
          cases h2 : removeFirst p rest with
          | none => rfl
          | some pr =>
            obtain ⟨d, r⟩ := pr
            rw [h2] at h
            simp at h
      · intro hall
        have hn : removeFirst p rest = none :=
          ih.mpr (fun x hx => hall x (List.mem_cons_of_mem e hx))
        rw [hn]

theorem removeFirst_spec {α : Type} (p : α → Bool) (l : List α) (d : α) (r : List α)
    (h : removeFirst p l = some (d, r)) :
    ∃ l1 l2, l = l1 ++ d :: l2 ∧ r = l1 ++ l2 ∧ p d = true ∧ ∀ x ∈ l1, p x = false := by
  induction l generalizing r with
  | nil => simp [removeFirst] at h
  | cons e rest ih =>
    rw [removeFirst] at h
    by_cases hp : p e = true
    · rw [if_pos hp] at h
      injection h with h3
      injection h3 with hd hr
      exact ⟨[], rest, by simp [hd], by simp [hr], hd ▸ hp, by simp⟩
    · simp only [Bool.not_eq_true] at hp
      rw [if_neg (by simp [hp])] at h
      cases h2 : removeFirst p rest with
      | none => rw [h2] at h; simp at h
      | some pr =>
        obtain ⟨d2, rest2⟩ := pr
        rw [h2] at h
        injection h with h3
        injection h3 with hd hr
        obtain ⟨l1, l2, hl, hr2, hpd, hall⟩ := ih rest2 (hd ▸ h2)
        refine ⟨e :: l1, l2, by simp [hl], by simp [hr.symm, hr2], hpd, ?_⟩
        intro x hx
        rcases List.mem_cons.mp hx with hx1 | hx2
        · exact hx1 ▸ hp
        · exact hall x hx2

theorem replaceFirst_spec {α : Type} (p : α → Bool) (f : α → α) (l : List α) (u : α)
    (r : List α) (h : replaceFirst p f l = some (u, r)) :
    ∃ l1 e l2, l = l1 ++ e :: l2 ∧ r = l1 ++ f e :: l2 ∧ u = f e ∧ p e = true ∧
      ∀ x ∈ l1, p x = false := by
  induction l generalizing r with
  | nil => simp [replaceFirst] at h
  | cons e rest ih =>
    rw [replaceFirst] at h
    by_cases hp : p e = true
    · rw [if_pos hp] at h
      injection h with h3
      injection h3 with hd hr
      exact ⟨[], e, rest, by simp, by simp [hr], hd.symm, hp, by simp⟩
    · simp only [Bool.not_eq_true] at hp
      rw [if_neg (by simp [hp])] at h
      cases h2 : replaceFirst p f rest with
      | none => rw [h2] at h; simp at h
      | some pr =>
        obtain ⟨u2, rest2⟩ := pr
        rw [h2] at h
        injection h with h3
        injection h3 with hd hr
        obtain ⟨l1, e0, l2, hl, hr2, hu, hpe, hall⟩ := ih rest2 (hd ▸ h2)
        refine ⟨e :: l1, e0, l2, by simp [hl], by simp [hr.symm, hr2], hu, hpe, ?_⟩
        intro x hx
        rcases List.mem_cons.mp hx with hx1 | hx2
        · exact hx1 ▸ hp
        · exact hall x hx2

theorem find?_eq_none_of_all {α : Type} (p : α → Bool) (l : List α)
    (h : ∀ x ∈ l, p x = false) : l.find? p = none :=
  List.find?_eq_none.mpr (fun x hx => by simp [h x hx])

/-- The descending-creation-time order used by the document-store list
endpoints: an earlier element of the response was created no earlier than a
later one. -/
def createdAtGE (a b : DbEvent) : Prop := b.createdAt ≤ a.createdAt

theorem insertByCreatedAtDesc_perm (e : DbEvent) (l : List DbEvent) :
    List.Perm (insertByCreatedAtDesc e l) (e :: l) := by
  induction l with
  | nil => simp [insertByCreatedAtDesc]
  | cons x xs ih =>
    rw [insertByCreatedAtDesc]
    by_cases h : e.createdAt ≤ x.createdAt
    · rw [if_pos h]
      exact (ih.cons x).trans (List.Perm.swap e x xs)
    · rw [if_neg h]

theorem sortByCreatedAtDesc_perm (l : List DbEvent) :
    List.Perm (sortByCreatedAtDesc l) l := by
  induction l with
  | nil => simp [sortByCreatedAtDesc]
  | cons x xs ih =>
    exact (insertByCreatedAtDesc_perm x (sortByCreatedAtDesc xs)).trans (ih.cons x)

theorem insertByCreatedAtDesc_sorted (e : DbEvent) (l : List DbEvent)
    (h : List.Pairwise createdAtGE l) :
    List.Pairwise createdAtGE (insertByCreatedAtDesc e l) := by
  induction l with
  | nil => simp [insertByCreatedAtDesc]
  | cons x xs ih =>
    obtain ⟨hx, hxs⟩ := List.pairwise_cons.mp h
    rw [insertByCreatedAtDesc]
    by_cases hle : e.createdAt ≤ x.createdAt
    · rw [if_pos hle]
      refine List.pairwise_cons.mpr ⟨?_, ih hxs⟩
      intro y hy
      rcases List.mem_cons.mp ((insertByCreatedAtDesc_perm e xs).mem_iff.mp hy) with h1 | h1
      · exact h1 ▸ hle
      · exact hx y h1
    · rw [if_neg hle]
      have hxe : createdAtGE e x := le_of_lt (Nat.lt_of_not_le hle)
      refine List.pairwise_cons.mpr ⟨?_, h⟩
      intro y hy
      rcases List.mem_cons.mp hy with h1 | h1
      · exact h1 ▸ hxe
      · exact le_trans (hx y h1) hxe

theorem sortByCreatedAtDesc_sorted (l : List DbEvent) :
    List.Pairwise createdAtGE (sortByCreatedAtDesc l) := by
  induction l with
  | nil => simp [sortByCreatedAtDesc]
  | cons x xs ih => exact insertByCreatedAtDesc_sorted x (sortByCreatedAtDesc xs) ih

theorem memPost_valid_length (s : MemState) (b : EventBody) (t : Nat)
    (h : memRequiredMissing b = false) :
    (memPost s b t).newState.events.length = s.events.length + 1 := by
  simp [memPost, h]

theorem postMany_length (reqs : List (EventBody × Nat))
    (h : ∀ r ∈ reqs, memRequiredMissing r.1 = false) (s : MemState) :
    (postMany s reqs).events.length = s.events.length + reqs.length := by
  induction reqs generalizing s with
  | nil => simp [postMany]
  | cons r rs ih =>
    have h1 := h r (by simp)
    have h2 : ∀ x ∈ rs, memRequiredMissing x.1 = false :=
      fun x hx => h x (List.mem_cons_of_mem r hx)
    have h3 := ih h2 ((memPost s r.1 r.2).newState)
    rw [postMany, List.foldl_cons]
    rw [postMany] at h3
    rw [h3, memPost_valid_length s r.1 r.2 h1, List.length_cons]
    omega

/-! Claim theorems. -/

/-- C1: a POST whose body carries all required fields (title,
shortDescription, fullDescription, date, location, price, and createdBy in
the document-store variants) is answered with status 201 and a record whose
fields equal the input fields, with the defaults applied for omitted
optional fields (time 09:00, category Other, imageUrl 📅), and that record
is appended to the store. -/
theorem c1_post_valid_creates (s : MemState) (store : List DbEvent) (b : EventBody)
    (t : Nat) (nid : String)
    (ht : truthy b.title = true) (hsh : truthy b.shortDescription = true)
    (hfu : truthy b.fullDescription = true) (hdt : truthy b.date = true)
    (hlo : truthy b.location = true) (hpr : truthy b.price = true)
    (hcr : truthy b.createdBy = true) :
    (memPost s b t).status = 201 ∧
    (∃ r, (memPost s b t).record = some r ∧
      (memPost s b t).newState.events = s.events ++ [r] ∧
      r.id = s.nextId ∧ r.createdAt = t ∧
      (∀ x, b.title = some x → r.title = x) ∧
      (∀ x, b.shortDescription = some x → r.shortDescription = x) ∧
      (∀ x, b.fullDescription = some x → r.fullDescription = x) ∧
      (∀ x, b.date = some x → r.date = x) ∧
      (∀ x, b.location = some x → r.location = x) ∧
      (∀ x, b.price = some x → r.price = x) ∧
      (∀ x, b.time = some x → x ≠ "" → r.time = x) ∧
      (∀ x, b.category = some x → x ≠ "" → r.category = x) ∧
      (∀ x, b.imageUrl = some x → x ≠ "" → r.imageUrl = x) ∧
      (b.time = none → r.time = "09:00") ∧
      (b.category = none → r.category = "Other") ∧
      (b.imageUrl = none → r.imageUrl = "📅")) ∧
    (dbPostHandler store b nid t false).1 = 201 ∧
    (∃ r, (dbPostHandler store b nid t false).2.2 = some r ∧
      (dbPostHandler store b nid t false).2.1 = store ++ [r] ∧
      r.id = nid ∧ r.createdAt = t ∧
      (∀ x, b.title = some x → r.title = x) ∧
      (∀ x, b.shortDescription = some x → r.shortDescription = x) ∧
      (∀ x, b.fullDescription = some x → r.fullDescription = x) ∧
      (∀ x, b.date = some x → r.date = x) ∧
      (∀ x, b.location = some x → r.location = x) ∧
      (∀ x, b.price = some x → r.price = x) ∧
      (∀ x, b.createdBy = some x → r.createdBy = x) ∧
      (∀ x, b.time = some x → x ≠ "" → r.time = x) ∧
      (∀ x, b.category = some x → x ≠ "" → r.category = x) ∧
      (∀ x, b.imageUrl = some x → x ≠ "" → r.imageUrl = x) ∧
      (b.time = none → r.time = "09:00") ∧
      (b.category = none → r.category = "Other") ∧
      (b.imageUrl = none → r.imageUrl = "📅")) := by
  have hmem : memRequiredMissing b = false := by
    simp [memRequiredMissing, ht, hsh, hfu, hdt, hlo, hpr]
  have hdb : dbRequiredMissing b = false := by
    simp [dbRequiredMissing, ht, hsh, hfu, hdt, hlo, hpr, hcr]
  refine ⟨by simp [memPost, hmem],
    ⟨memNewEvent s b t, by simp [memPost, hmem], by simp [memPost, hmem],
      rfl, rfl,
      ?_, ?_, ?_, ?_, ?_, ?_, ?_, ?_, ?_, ?_, ?_, ?_⟩,
    by simp [dbPostHandler, hdb],
    ⟨dbNewEvent b nid t, by simp [dbPostHandler, hdb], by simp [dbPostHandler, hdb],
      rfl, rfl, ?_, ?_, ?_, ?_, ?_, ?_, ?_, ?_, ?_, ?_, ?_, ?_, ?_⟩⟩
  all_goals first
    | (intro x hx hne
       simp [memNewEvent, dbNewEvent, orDefaultStr, hx, hne])
    | (intro x hx
       simp [memNewEvent, dbNewEvent, orDefaultStr, hx])
    | (intro hx
       simp [memNewEvent, dbNewEvent, orDefaultStr, hx])

/-- C1 witness at a concrete valid body. -/
theorem c1_post_valid_creates_witness :
    (memPost memInitialState demoBody 5).status = 201 :=
  (c1_post_valid_creates memInitialState [] demoBody 5 "a1"
    (by decide) (by decide) (by decide) (by decide) (by decide) (by decide)
    (by decide)).1

/-- C2 (amended): a POST is answered 400 exactly when at least one required
field is missing or empty in the body (JavaScript falsiness): the in-memory
variant checks title, shortDescription, fullDescription, date, location and
price, the document-store variants additionally createdBy. A 400 response
leaves 201 impossible since the status is 400. -/
theorem c2_post_missing_400 (s : MemState) (store : List DbEvent) (b : EventBody)
    (t : Nat) (nid : String) (fail : Bool) :
    ((memPost s b t).status = 400 ↔
      (strMissing b.title ∨ strMissing b.shortDescription ∨
        strMissing b.fullDescription ∨ strMissing b.date ∨
        strMissing b.location ∨ strMissing b.price)) ∧
    ((dbPostHandler store b nid t fail).1 = 400 ↔
      (strMissing b.title ∨ strMissing b.shortDescription ∨
        strMissing b.fullDescription ∨ strMissing b.date ∨
        strMissing b.location ∨ strMissing b.price ∨ strMissing b.createdBy)) := by
  have keyMem : memRequiredMissing b = true ↔
      (strMissing b.title ∨ strMissing b.shortDescription ∨
        strMissing b.fullDescription ∨ strMissing b.date ∨
        strMissing b.location ∨ strMissing b.price) := by
    simp only [memRequiredMissing, Bool.or_eq_true, Bool.not_eq_true',
      truthy_eq_false_iff]
    tauto
  have keyDb : dbRequiredMissing b = true ↔
      (strMissing b.title ∨ strMissing b.shortDescription ∨
        strMissing b.fullDescription ∨ strMissing b.date ∨
        strMissing b.location ∨ strMissing b.price ∨ strMissing b.createdBy) := by
    simp only [dbRequiredMissing, Bool.or_eq_true, Bool.not_eq_true',
      truthy_eq_false_iff]
    tauto
  constructor
  · refine Iff.trans ?_ keyMem
    by_cases hm : memRequiredMissing b = true
    · simp [memPost, hm]
    · simp [memPost, hm]
  · refine Iff.trans ?_ keyDb
    by_cases hm : dbRequiredMissing b = true
    · simp [dbPostHandler, hm]
    · cases fail <;> simp [dbPostHandler, hm]

/-- C2 counterexample: a body whose required fields are all present but
whose title is the empty string is still answered 400, so 400 is not
returned only for missing fields. -/
theorem c2_counterexample :
    (memPost memInitialState emptyTitleBody 0).status = 400 ∧
    emptyTitleBody.title ≠ none ∧ emptyTitleBody.shortDescription ≠ none ∧
    emptyTitleBody.fullDescription ≠ none ∧ emptyTitleBody.date ≠ none ∧
    emptyTitleBody.location ≠ none ∧ emptyTitleBody.price ≠ none := by
  refine ⟨?_, by simp [emptyTitleBody, demoBody], by simp [emptyTitleBody, demoBody],
    by simp [emptyTitleBody, demoBody], by simp [emptyTitleBody, demoBody],
    by simp [emptyTitleBody, demoBody], by simp [emptyTitleBody, demoBody]⟩
  simp [memPost, memRequiredMissing, truthy, emptyTitleBody, demoBody]

/-- C3 (amended): starting from server start, N successful POST creations
leave the in-memory store with the 3 seeded records plus the N created
ones, so GET /api/events returns 3 + N records. -/
theorem c3_list_after_posts (reqs : List (EventBody × Nat))
    (h : ∀ r ∈ reqs, memRequiredMissing r.1 = false) :
    (memGetEvents (postMany memInitialState reqs)).length = 3 + reqs.length := by
  have hlen := postMany_length reqs h memInitialState
  simp only [memGetEvents]
  rw [hlen]
  simp [memInitialState]

/-- C3 witness: one successful creation leaves 3 + 1 records. -/
theorem c3_list_after_posts_witness :
    (memGetEvents (postMany memInitialState [(demoBody, 1)])).length = 3 + 1 :=
  c3_list_after_posts [(demoBody, 1)] (by decide)

/-- C3 counterexample: with N = 0 creations GET /api/events returns the 3
seeded records, not 0 records. -/
theorem c3_counterexample :
    (memGetEvents (postMany memInitialState [])).length = 3 ∧
    (memGetEvents (postMany memInitialState [])).length ≠ 0 := by
  constructor <;> simp [memGetEvents, postMany, memInitialState]

/-- A present key can always be removed, the removed element is gone, and
no element with that key remains (given pairwise-distinct keys). -/
theorem removeFirst_complete {α κ : Type} [BEq κ] [LawfulBEq κ] (key : α → κ) (k : κ)
    (l : List α) (hnd : (l.map key).Nodup) (e : α) (he : e ∈ l) (hk : key e = k) :
    ∃ d rest, removeFirst (fun x => key x == k) l = some (d, rest) ∧
      e ∉ rest ∧ ∀ x ∈ rest, (key x == k) = false := by
  cases hrm : removeFirst (fun x => key x == k) l with
  | none =>
    exfalso
    have := (removeFirst_eq_none _ l).mp hrm e he
    simp [hk] at this
  | some pr =>
    obtain ⟨d, rest⟩ := pr
    obtain ⟨l1, l2, hl, hr, hpd, hall⟩ := removeFirst_spec _ l d rest hrm
    have hdk : key d = k := by simpa using hpd
    have hmap : l.map key = l1.map key ++ key d :: l2.map key := by
      rw [hl]; simp
    rw [hmap] at hnd
    have hnd2 : (key d :: l2.map key).Nodup :=
      hnd.sublist (List.sublist_append_right _ _)
    have hdninl2 : key d ∉ l2.map key := (List.nodup_cons.mp hnd2).1
    have hnotl2 : ∀ x ∈ l2, (key x == k) = false := by
      intro x hx
      cases hb : (key x == k) with
      | false => rfl
      | true =>
        exfalso
        have hkx : key x = k := by simpa using hb
        apply hdninl2
        rw [hdk, ← hkx]
        exact List.mem_map_of_mem key hx
    have hallrest : ∀ x ∈ rest, (key x == k) = false := by
      intro x hx
      rw [hr] at hx
      rcases List.mem_append.mp hx with h1 | h1
      · exact hall x h1
      · exact hnotl2 x h1
    refine ⟨d, rest, rfl, ?_, hallrest⟩
    intro hcon
    have := hallrest e hcon
    simp [hk] at this

/-- C4: DELETE of an id absent from the store answers 404 and leaves the
store unchanged; DELETE of a present id (the stored ids being pairwise
distinct) answers 200, the record is gone from the store, and a subsequent
GET by the same id answers 404. Covers the in-memory and the document-store
delete handlers. -/
theorem c4_delete_semantics (s : MemState) (store : List DbEvent) (idm : Nat)
    (idd : String) :
    ((∀ e ∈ s.events, e.id ≠ idm) → memDelete s idm = (404, s, none)) ∧
    ((s.events.map MemEvent.id).Nodup →
      ∀ e, e ∈ s.events → e.id = idm →
        (memDelete s idm).1 = 200 ∧
        e ∉ (memDelete s idm).2.1.events ∧
        (memGetEvent (memDelete s idm).2.1 idm).1 = 404) ∧
    ((∀ e ∈ store, e.id ≠ idd) → dbDeleteHandler store idd false = (404, store, none)) ∧
    ((store.map DbEvent.id).Nodup →
      ∀ e, e ∈ store → e.id = idd →
        (dbDeleteHandler store idd false).1 = 200 ∧
        e ∉ (dbDeleteHandler store idd false).2.1 ∧
        (dbGetEventHandler (dbDeleteHandler store idd false).2.1 idd false).1 = 404) := by
  refine ⟨?_, ?_, ?_, ?_⟩
  · intro hab
    have hnone : removeFirst (fun e => e.id == idm) s.events = none :=
      (removeFirst_eq_none _ _).mpr (fun x hx => by simp [hab x hx])
    simp [memDelete, hnone]
  · intro hnd e he hk
    obtain ⟨d, rest, hrm, hne, hall⟩ :=
      removeFirst_complete MemEvent.id idm s.events hnd e he hk
    refine ⟨by simp [memDelete, hrm], ?_, ?_⟩
    · simpa [memDelete, hrm] using hne
    · simp [memDelete, hrm, memGetEvent, find?_eq_none_of_all _ _ hall]
  · intro hab
    have hnone : removeFirst (fun e => e.id == idd) store = none :=
      (removeFirst_eq_none _ _).mpr (fun x hx => by simp [hab x hx])
    simp [dbDeleteHandler, hnone]
  · intro hnd e he hk
    obtain ⟨d, rest, hrm, hne, hall⟩ :=
      removeFirst_complete DbEvent.id idd store hnd e he hk
    refine ⟨by simp [dbDeleteHandler, hrm], ?_, ?_⟩
    · simpa [dbDeleteHandler, hrm] using hne
    · simp [dbDeleteHandler, hrm, dbGetEventHandler, find?_eq_none_of_all _ _ hall]

/-- C4 witness: deleting the unknown id 99 after server start answers 404
and changes nothing; deleting the seeded id 2 answers 200, removes the
record, and a subsequent GET of id 2 answers 404. -/
theorem c4_delete_semantics_witness :
    memDelete memInitialState 99 = (404, memInitialState, none) ∧
    ((memDelete memInitialState 2).1 = 200 ∧
      memSeed2 ∉ (memDelete memInitialState 2).2.1.events ∧
      (memGetEvent (memDelete memInitialState 2).2.1 2).1 = 404) :=
  ⟨(c4_delete_semantics memInitialState [] 99 "z").1 (by decide),
   (c4_delete_semantics memInitialState [] 2 "z").2.1 (by decide) memSeed2
     (List.mem_cons_of_mem _ (List.mem_cons_self _ _)) rfl⟩

/-- C5 (amended): the list endpoint returns all stored records: the
document-store variants return a permutation of the store sorted by
createdAt descending, while the in-memory variant returns the store in
insertion order (unsorted). -/
theorem c5_list_all (store : List DbEvent) (s : MemState) :
    (dbGetEventsHandler store false).1 = 200 ∧
    (dbGetEventsHandler store false).2 = some (sortByCreatedAtDesc store) ∧
    List.Perm (sortByCreatedAtDesc store) store ∧
    List.Pairwise createdAtGE (sortByCreatedAtDesc store) ∧
    memGetEvents s = s.events :=
  ⟨rfl, rfl, sortByCreatedAtDesc_perm store, sortByCreatedAtDesc_sorted store, rfl⟩

/-- C5 counterexample: in the in-memory variant, after one POST at a time
later than server start, GET /api/events returns the store as is, which is
not sorted by createdAt descending. -/
theorem c5_counterexample :
    memGetEvents (memPost memInitialState demoBody 1).newState =
      memInitialState.events ++ [memNewEvent memInitialState demoBody 1] ∧
    ¬ List.Pairwise (fun a b => MemEvent.createdAt b ≤ MemEvent.createdAt a)
      (memGetEvents (memPost memInitialState demoBody 1).newState) := by
  constructor
  · have hm : memRequiredMissing demoBody = false := by decide
    simp [memGetEvents, memPost, hm]
  · decide

/-- C6: the get-by-owner endpoint returns exactly the stored records whose
createdBy equals the requested email: every returned record has that owner
and every stored record with that owner is returned. -/
theorem c6_user_filter (store : List DbEvent) (email : String) :
    ∃ l, dbGetUserEventsHandler store email false = (200, some l) ∧
      ∀ ev, ev ∈ l ↔ (ev ∈ store ∧ ev.createdBy = email) := by
  refine ⟨sortByCreatedAtDesc (store.filter (fun e => e.createdBy == email)), rfl, ?_⟩
  intro ev
  rw [(sortByCreatedAtDesc_perm _).mem_iff, List.mem_filter]
  simp

/-- C7 (amended): PUT on an existing id answers 200 and merges the request
body into the stored record: a field present in the body overwrites the
stored one, a field absent from the body keeps its stored value; the stored
record keeps the original identifier (even when the body carries an id) and
updatedAt is set to the request time. Every other record and the counter
are untouched. -/
theorem c7_put_merges (s : MemState) (id : Nat) (b : EventBody) (t : Nat) :
    ∀ st u, memPut s id b t = (200, st, some u) →
      st.nextId = s.nextId ∧
      ∃ l1 e l2, s.events = l1 ++ e :: l2 ∧ st.events = l1 ++ u :: l2 ∧
        e.id = id ∧ u.id = e.id ∧ u.updatedAt = some t ∧
        (∀ n, b.id = some n → u.id = e.id) ∧
        (∀ x, b.title = some x → u.title = x) ∧
        (b.title = none → u.title = e.title) ∧
        (∀ x, b.shortDescription = some x → u.shortDescription = x) ∧
        (b.shortDescription = none → u.shortDescription = e.shortDescription) ∧
        (∀ x, b.fullDescription = some x → u.fullDescription = x) ∧
        (b.fullDescription = none → u.fullDescription = e.fullDescription) ∧
        (∀ x, b.date = some x → u.date = x) ∧
        (b.date = none → u.date = e.date) ∧
        (∀ x, b.time = some x → u.time = x) ∧
        (b.time = none → u.time = e.time) ∧
        (∀ x, b.location = some x → u.location = x) ∧
        (b.location = none → u.location = e.location) ∧
        (∀ x, b.price = some x → u.price = x) ∧
        (b.price = none → u.price = e.price) ∧
        (∀ x, b.category = some x → u.category = x) ∧
        (b.category = none → u.category = e.category) ∧
        (∀ x, b.imageUrl = some x → u.imageUrl = x) ∧
        (b.imageUrl = none → u.imageUrl = e.imageUrl) := by
  intro st u h
  rw [memPut] at h
  cases hrp : replaceFirst (fun e => e.id == id) (fun e => mergeEvent e b t) s.events with
  | none => rw [hrp] at h; simp at h
  | some pr =>
    obtain ⟨u2, rest⟩ := pr
    rw [hrp] at h
    injection h with h1 h2
    injection h2 with h2a h2b
    injection h2b with h2b
    subst h2a
    obtain ⟨l1, e, l2, hl, hr, hu, hpe, hall⟩ :=
      replaceFirst_spec _ _ s.events u2 rest hrp
    rw [hu] at h2b
    subst h2b
    refine ⟨rfl, l1, e, l2, hl, by simpa using hr, by simpa using hpe, rfl, rfl,
      ?_, ?_, ?_, ?_, ?_, ?_, ?_, ?_, ?_, ?_, ?_, ?_, ?_, ?_, ?_, ?_, ?_, ?_, ?_⟩
    all_goals first
      | (intro x hx
         simp [mergeEvent, hx])
      | (intro hx
         simp [mergeEvent, hx])

/-- C7 counterexample: a PUT whose body carries only a title keeps the
stored location, so PUT is a merge, not a full replace of the record by the
request body. -/
theorem c7_counterexample :
    titleOnlyBody.location = none ∧
    ((memPut memInitialState 1 titleOnlyBody 7).2.2.map MemEvent.location) =
      some "Moscone Center, San Francisco, CA" :=
  ⟨rfl, rfl⟩

def c7PutState : MemState :=
  { events := [memSeed1, mergeEvent memSeed2 titleOnlyBody 7, memSeed3], nextId := 4 }

/-- C7 witness at the seeded record with id 2. -/
theorem c7_put_merges_witness :
    c7PutState.nextId = memInitialState.nextId :=
  (c7_put_merges memInitialState 2 titleOnlyBody 7 c7PutState
    (mergeEvent memSeed2 titleOnlyBody 7) rfl).1

/-- C8 (amended): when the single document-store operation of a handler
fails, the list, get-by-owner, create (on a body passing validation) and
delete handlers answer 500, but the get-by-id handler answers 404 from its
catch branch. -/
theorem c8_storage_failure_statuses (store : List DbEvent) (id email nid : String)
    (b : EventBody) (t : Nat) (hv : dbRequiredMissing b = false) :
    (dbGetEventsHandler store true).1 = 500 ∧
    (dbGetUserEventsHandler store email true).1 = 500 ∧
    (dbPostHandler store b nid t true).1 = 500 ∧
    (dbDeleteHandler store id true).1 = 500 ∧
    (dbGetEventHandler store id true).1 = 404 := by
  refine ⟨rfl, rfl, ?_, rfl, rfl⟩
  simp [dbPostHandler, hv]

/-- C8 witness: a failing save on a valid body answers 500. -/
theorem c8_storage_failure_statuses_witness :
    (dbPostHandler [] demoBody "n1" 0 true).1 = 500 :=
  (c8_storage_failure_statuses [] "i1" "e1" "n1" demoBody 0 (by decide)).2.2.1

/-- C8 counterexample: a failing store operation in get-by-id yields 404,
not 500, so storage failures do not always map to 500. -/
theorem c8_counterexample :
    (dbGetEventHandler [] "abc" true).1 = 404 ∧
    (dbGetEventHandler [] "abc" true).1 ≠ 500 :=
  ⟨rfl, by decide⟩

/-- Replacing the first match with a key-preserving update leaves the list
of keys unchanged. -/
theorem replaceFirst_map_eq {α β : Type} (p : α → Bool) (f : α → α) (g : α → β)
    (hg : ∀ x, g (f x) = g x) (l : List α) (u : α) (r : List α)
    (h : replaceFirst p f l = some (u, r)) : r.map g = l.map g := by
  obtain ⟨l1, e, l2, hl, hr, -, -, -⟩ := replaceFirst_spec p f l u r h
  rw [hl, hr]
  simp [hg]

/-- C9: the in-memory invariant (pairwise-distinct event ids, all strictly
below nextId) holds at server start and is preserved by POST, PUT and
DELETE; consequently the id a successful POST assigns is not already in the
store. -/
theorem c9_id_invariant (s : MemState) (b : EventBody) (t : Nat) (id : Nat)
    (h : memInvariant s) :
    memInvariant memInitialState ∧
    memInvariant (memPost s b t).newState ∧
    memInvariant (memPut s id b t).2.1 ∧
    memInvariant (memDelete s id).2.1 ∧
    (∀ r, (memPost s b t).record = some r → r.id ∉ s.events.map MemEvent.id) := by
  have hfresh : s.nextId ∉ s.events.map MemEvent.id := by
    intro hmem
    obtain ⟨e, he, heq⟩ := List.mem_map.mp hmem
    exact Nat.lt_irrefl _ (heq ▸ h.2 e he)
  refine ⟨⟨by decide, by decide⟩, ?_, ?_, ?_, ?_⟩
  · by_cases hm : memRequiredMissing b = true
    · simpa [memPost, hm] using h
    · refine ⟨?_, ?_⟩
      · simp only [memPost, hm, Bool.false_eq_true, if_false, List.map_append,
          List.map_cons, List.map_nil]
        rw [List.nodup_middle]
        simp [memNewEvent, h.1, hfresh]
      · intro e he
        simp only [memPost, hm, Bool.false_eq_true, if_false] at he ⊢
        rcases List.mem_append.mp he with h1 | h1
        · exact Nat.lt_trans (h.2 e h1) (Nat.lt_succ_self _)
        · simp at h1
          rw [h1]
          simp [memNewEvent]
  · cases hrp : replaceFirst (fun e => e.id == id) (fun e => mergeEvent e b t) s.events with
    | none => simpa [memPut, hrp] using h
    | some pr =>
      obtain ⟨u, rest⟩ := pr
      have hmap : rest.map MemEvent.id = s.events.map MemEvent.id :=
        replaceFirst_map_eq (fun e => e.id == id) (fun e => mergeEvent e b t)
          MemEvent.id (fun x => rfl) s.events u rest hrp
      refine ⟨?_, ?_⟩
      · simp only [memPut, hrp]
        simpa [hmap] using h.1
      · intro e he
        simp only [memPut, hrp] at he ⊢
        have hin : e.id ∈ s.events.map MemEvent.id :=
          hmap ▸ List.mem_map_of_mem _ he
        obtain ⟨e0, he0, heq⟩ := List.mem_map.mp hin
        exact heq ▸ h.2 e0 he0
  · cases hrm : removeFirst (fun e => e.id == id) s.events with
    | none => simpa [memDelete, hrm] using h
    | some pr =>
      obtain ⟨d, rest⟩ := pr
      obtain ⟨l1, l2, hl, hr, -, -⟩ := removeFirst_spec _ s.events d rest hrm
      refine ⟨?_, ?_⟩
      · simp only [memDelete, hrm]
        have hnd := h.1
        rw [hl] at hnd
        simp only [List.map_append, List.map_cons, List.nodup_middle] at hnd
        have := (List.nodup_cons.mp hnd).2
        simpa [hr] using this
      · intro e he
        simp only [memDelete, hrm] at he ⊢
        apply h.2
        rw [hl]
        rw [hr] at he
        rcases List.mem_append.mp he with h1 | h1
        · exact List.mem_append.mpr (Or.inl h1)
        · exact List.mem_append.mpr (Or.inr (List.mem_cons_of_mem d h1))
  · intro r hr
    by_cases hm : memRequiredMissing b = true
    · simp [memPost, hm] at hr
    · simp only [memPost, hm, Bool.false_eq_true, if_false] at hr
      have : memNewEvent s b t = r := by simpa using hr
      rw [← this]
      simpa [memNewEvent] using hfresh

/-- C9 witness: the invariant holds at server start, discharged through the
invariant-preservation theorem. -/
theorem c9_id_invariant_witness : memInvariant memInitialState :=
  (c9_id_invariant memInitialState demoBody 0 1 ⟨by decide, by decide⟩).1

/-- C10: in the in-memory variant a successful DELETE removes exactly the
targeted record: the remaining records are the original list with the
matched record cut out, order preserved, and the counter is unchanged; a
POST answered 400 leaves the whole state (store and nextId) unchanged. -/
theorem c10_frame (s : MemState) (id : Nat) (b : EventBody) (t : Nat) :
    (∀ st d, memDelete s id = (200, st, some d) →
      st.nextId = s.nextId ∧ d.id = id ∧
      ∃ l1 l2, s.events = l1 ++ d :: l2 ∧ st.events = l1 ++ l2) ∧
    ((memPost s b t).status = 400 → (memPost s b t).newState = s) := by
  constructor
  · intro st d hdel
    rw [memDelete] at hdel
    cases hrm : removeFirst (fun e => e.id == id) s.events with
    | none => rw [hrm] at hdel; simp at hdel
    | some pr =>
      obtain ⟨d2, rest⟩ := pr
      rw [hrm] at hdel
      injection hdel with h1 h2
      injection h2 with h2a h2b
      injection h2b with h2b
      subst h2a
      subst h2b
      obtain ⟨l1, l2, hl, hr, hpd, -⟩ := removeFirst_spec _ s.events d2 rest hrm
      exact ⟨rfl, by simpa using hpd, l1, l2, hl, by simpa using hr⟩
  · intro hst
    by_cases hm : memRequiredMissing b = true
    · simp [memPost, hm]
    · simp [memPost, hm] at hst

def c10DeleteState : MemState :=
  { events := [memSeed1, memSeed3], nextId := 4 }

/-- C10 witness: deleting the seeded id 2 keeps the counter and cuts out
exactly that record; a POST with an empty title is answered 400 and leaves
the state unchanged. -/
theorem c10_frame_witness :
    (c10DeleteState.nextId = memInitialState.nextId ∧ memSeed2.id = 2 ∧
      ∃ l1 l2, memInitialState.events = l1 ++ memSeed2 :: l2 ∧
        c10DeleteState.events = l1 ++ l2) ∧
    (memPost memInitialState emptyTitleBody 0).newState = memInitialState :=
  ⟨(c10_frame memInitialState 2 emptyTitleBody 0).1 c10DeleteState memSeed2 rfl,
   (c10_frame memInitialState 2 emptyTitleBody 0).2 (by decide)⟩
